import Mathlib

/-!
Verification of the pydiverse.pipedag coordination kernel
(`pdpipedag/backend/core.py` and `pdpipedag/backend/lock.py`):
fingerprint hashing, the reference codec, the stage registry and
swap protocol, table naming during materialisation, and the
lock-manager backends with their lock-state machine.
-/

namespace PipeDAG

/-! ## UTF-8 encoding (`str.encode('utf8')`), bytes as `Nat` -/

/-- UTF-8 encoding of a single code point, as a list of byte values. -/
def utf8EncodeChar (c : Char) : List Nat :=
  let n := c.toNat
  if n < 0x80 then [n]
  else if n < 0x800 then
    [0xC0 ||| (n >>> 6), 0x80 ||| (n &&& 0x3F)]
  else if n < 0x10000 then
    [0xE0 ||| (n >>> 12), 0x80 ||| ((n >>> 6) &&& 0x3F), 0x80 ||| (n &&& 0x3F)]
  else
    [0xF0 ||| (n >>> 18), 0x80 ||| ((n >>> 12) &&& 0x3F),
     0x80 ||| ((n >>> 6) &&& 0x3F), 0x80 ||| (n &&& 0x3F)]

/-- UTF-8 encoding of a string as a byte list (Python `s.encode('utf8')`). -/
def utf8Bytes (s : String) : List Nat :=
  s.data.flatMap utf8EncodeChar

/-! ## SHA-256 (`hashlib.sha256`), words as `Nat` reduced mod `2^32` -/

/-- Truncate to a 32-bit word. -/
def w32 (n : Nat) : Nat := n % 4294967296

/-- 32-bit right rotation. -/
def rotr (x n : Nat) : Nat := w32 ((x >>> n) ||| (x <<< (32 - n)))

/-- The 64 SHA-256 round constants of FIPS 180-4, written in decimal. -/
def sha256K : List Nat :=
  [1116352408, 1899447441, 3049323471, 3921009573, 961987163,
   1508970993, 2453635748, 2870763221, 3624381080, 310598401,
   607225278, 1426881987, 1925078388, 2162078206, 2614888103,
   3248222580, 3835390401, 4022224774, 264347078, 604807628,
   770255983, 1249150122, 1555081692, 1996064986, 2554220882,
   2821834349, 2952996808, 3210313671, 3336571891, 3584528711,
   113926993, 338241895, 666307205, 773529912, 1294757372,
   1396182291, 1695183700, 1986661051, 2177026350, 2456956037,
   2730485921, 2820302411, 3259730800, 3345764771, 3516065817,
   3600352804, 4094571909, 275423344, 430227734, 506948616,
   659060556, 883997877, 958139571, 1322822218, 1537002063,
   1747873779, 1955562222, 2024104815, 2227730452, 2361852424,
   2428436474, 2756734187, 3204031479, 3329325298]

/-- The eight SHA-256 initial hash values, written in decimal. -/
def sha256H0 : List Nat :=
  [1779033703, 3144134277, 1013904242, 2773480762,
   1359893119, 2600822924, 528734635, 1541459225]

/-- Message padding: append `0x80`, zero bytes to 56 mod 64, then the
bit length as 8 big-endian bytes. -/
def sha256Pad (msg : List Nat) : List Nat :=
  let len := msg.length
  let padLen := (55 + 64 - len % 64) % 64 + 1
  let bitLen := len * 8
  msg ++ (0x80 :: List.replicate (padLen - 1) 0) ++
    (List.range 8).map (fun i => (bitLen >>> ((7 - i) * 8)) &&& 0xFF)

/-- Group a byte list into big-endian 32-bit words. -/
def bytesToWords : List Nat → List Nat
  | b0 :: b1 :: b2 :: b3 :: rest =>
      (((b0 <<< 8 ||| b1) <<< 8 ||| b2) <<< 8 ||| b3) :: bytesToWords rest
  | _ => []

/-- Extend 16 message words to the 64-entry schedule (`fuel` counts the
remaining entries; it starts at 48). -/
def sha256Schedule : Array Nat → Nat → Array Nat
  | ws, 0 => ws
  | ws, fuel + 1 =>
    let t := ws.size
    let w15 := ws.getD (t - 15) 0
    let w2 := ws.getD (t - 2) 0
    let s0 := rotr w15 7 ^^^ rotr w15 18 ^^^ (w15 >>> 3)
    let s1 := rotr w2 17 ^^^ rotr w2 19 ^^^ (w2 >>> 10)
    sha256Schedule (ws.push (w32 (ws.getD (t - 16) 0 + s0 + ws.getD (t - 7) 0 + s1))) fuel

/-- One round of the SHA-256 compression function. -/
def sha256Round (st : List Nat) (kw : Nat × Nat) : List Nat :=
  match st with
  | [a, b, c, d, e, f, g, h] =>
    let s1 := rotr e 6 ^^^ rotr e 11 ^^^ rotr e 25
    let ch := (e &&& f) ^^^ ((0xFFFFFFFF ^^^ e) &&& g)
    let t1 := w32 (h + s1 + ch + kw.1 + kw.2)
    let s0 := rotr a 2 ^^^ rotr a 13 ^^^ rotr a 22
    let mj := (a &&& b) ^^^ (a &&& c) ^^^ (b &&& c)
    let t2 := w32 (s0 + mj)
    [w32 (t1 + t2), a, b, c, w32 (d + t1), e, f, g]
  | st => st

/-- Process one 64-byte block: schedule expansion, 64 rounds, feed-forward. -/
def sha256Block (h : List Nat) (block : List Nat) : List Nat :=
  let ws := (sha256Schedule (bytesToWords block).toArray 48).toList
  let fin := (sha256K.zip ws).foldl sha256Round h
  (h.zip fin).map (fun p => w32 (p.1 + p.2))

/-- Split a padded message into 64-byte blocks and fold the compression
(`fuel` bounds the number of blocks). -/
def sha256BlocksGo : Nat → List Nat → List Nat → List Nat
  | 0, h, _ => h
  | _, h, [] => h
  | fuel + 1, h, msg => sha256BlocksGo fuel (sha256Block h (msg.take 64)) (msg.drop 64)

def sha256Blocks (h : List Nat) (msg : List Nat) : List Nat :=
  sha256BlocksGo msg.length h msg

def hexDigit (n : Nat) : Char :=
  "0123456789abcdef".toList.getD n '0'

/-- A 32-bit word as 8 lowercase hex characters. -/
def wordToHex (w : Nat) : List Char :=
  (List.range 8).map (fun i => hexDigit ((w >>> ((7 - i) * 4)) &&& 0xF))

/-- Digest `hashlib.sha256(bytes).hexdigest()`: the 64-character lowercase hex digest. -/
def sha256Hex (msg : List Nat) : String :=
  ⟨(sha256Blocks sha256H0 (sha256Pad msg)).flatMap wordToHex⟩

/-! ## Fingerprint hasher (`PipeDAGStore.compute_task_cache_key`) -/

/-- Python `task.version or 'None'`: `None` and the empty string (the falsy
strings) are both replaced by the literal `"None"`. -/
def versionOrNone : Option String → String
  | none => "None"
  | some v => if v = "" then "None" else v

/-- Source `PipeDAGStore.compute_task_cache_key`: join the sentinel, the task's
original name, `version or 'None'` and the input JSON with `'|'`, UTF-8
encode, SHA-256, and keep the first 20 hex characters. -/
def compute_task_cache_key (original_name : String) (version : Option String)
    (input_json : String) : String :=
  let v_str := String.intercalate "|"
    ["PYDIVERSE-PIPEDAG-TASK", original_name, versionOrNone version, input_json]
  ⟨(sha256Hex (utf8Bytes v_str)).data.take 20⟩

/-! ## Data model: schemas (stages), table references, error kinds -/

/-- Modelled from the spec: the `Schema` class (`pdpipedag.core.schema`) is not
under src/; per the spec a stage has a stable `name` and a derived
`working_name`, both used as registry keys. -/
structure Schema where
  name : String
  working_name : String
deriving DecidableEq, Repr

/-- Modelled from the spec: the `Table` class (`pdpipedag.core.Table`) is not
under src/; per the spec a table reference is the value triple
(stage, name, cache_key), and two references are equal iff all three
fields match (rendered by structural equality). -/
structure Table where
  schema : Schema
  name : String
  cache_key : String
deriving DecidableEq, Repr

/-- Error kinds raised by the kernel. Each constructor corresponds to one
raise site: `schemaExists` / `schemaWorkingExists` are the two `SchemaError`
raises of `create_schema` (the spec's `DuplicateStage`); `swapAlreadySwapped`
is the `SchemaError` of `swap_schema` and `schemaAlreadySwapped` the one of
`retrieve_cached_output` (the spec's `StageAlreadySwapped`); `assertionFailed`
is the `assert` in `materialise_task`; `keyError` is a missing dict key in
`_json_object_hook`; `unknownStage` is the registry miss
`pdpipedag.config.store.schemas[schema_name]`; `valueError` and
`notImplemented` are the remaining raises of `_json_object_hook`;
`lockError` is `pdpipedag.errors.LockError`; `cacheMiss` and
`tableStoreError` stand for errors surfaced from the table-store boundary. -/
inductive Err where
  | schemaExists (name : String)
  | schemaWorkingExists (name : String)
  | swapAlreadySwapped (name : String)
  | schemaAlreadySwapped
  | assertionFailed
  | keyError (key : String)
  | unknownStage (name : String)
  | valueError
  | notImplemented
  | typeError
  | lockError
  | cacheMiss
  | tableStoreError
deriving DecidableEq, Repr

/-- Equality of `Except` results is decidable when both components are. -/
instance {ε α : Type} [DecidableEq ε] [DecidableEq α] :
    DecidableEq (Except ε α) := fun x y =>
  match x, y with
  | .ok a, .ok b =>
      if h : a = b then .isTrue (by rw [h])
      else .isFalse (fun hh => h (Except.ok.inj hh))
  | .error e, .error f =>
      if h : e = f then .isTrue (by rw [h])
      else .isFalse (fun hh => h (Except.error.inj hh))
  | .ok _, .error _ => .isFalse (fun hh => Except.noConfusion hh)
  | .error _, .ok _ => .isFalse (fun hh => Except.noConfusion hh)

/-! ## Association lists standing for Python `dict` / registry maps -/

/-- First-match lookup in an association list (`d[k]` / `d.get(k)`). -/
def alookup {κ β : Type} [DecidableEq κ] : List (κ × β) → κ → Option β
  | [], _ => none
  | (k, v) :: kvs, key => if k = key then some v else alookup kvs key

/-- Python `d[k] = v`: replace the binding in place if the key is present,
otherwise append (dicts preserve insertion order). -/
def aupdate {κ β : Type} [DecidableEq κ] : List (κ × β) → κ → β → List (κ × β)
  | [], key, v => [(key, v)]
  | (k, w) :: kvs, key, v =>
      if k = key then (key, v) :: kvs else (k, w) :: aupdate kvs key v

/-- Python `del d[k]`: drop the (first) binding of the key. -/
def aremove {κ β : Type} [DecidableEq κ] : List (κ × β) → κ → List (κ × β)
  | [], _ => []
  | (k, w) :: kvs, key => if k = key then kvs else (k, w) :: aremove kvs key

/-! ## Materialisable output trees

Task outputs are trees of JSON-supported scalars, sequences, string-keyed
mappings and embedded table references (spec §4B; `pdpipedag._typing
.Materialisable`). Mappings are insertion-ordered key/value lists, as
Python dicts are. -/

mutual

inductive Mat where
  | str (s : String)
  | int (n : Int)
  | bool (b : Bool)
  | null
  | table (t : Table)
  | list (xs : MatList)
  | dict (kvs : MatDict)
deriving DecidableEq, Repr

inductive MatList where
  | nil
  | cons (x : Mat) (xs : MatList)
deriving DecidableEq, Repr

inductive MatDict where
  | nil
  | cons (k : String) (v : Mat) (kvs : MatDict)
deriving DecidableEq, Repr

end

/-- Python truthiness of a decoded JSON value (`if pipedag_type:`). -/
def matTruthy : Mat → Bool
  | .str s => s ≠ ""
  | .int n => n ≠ 0
  | .bool b => b
  | .null => false
  | .table _ => true
  | .list xs => xs ≠ .nil
  | .dict kvs => kvs ≠ .nil

/-- First-match lookup in a mapping node (`d.get(k)` / `d[k]`). -/
def dictLookup : MatDict → String → Option Mat
  | .nil, _ => none
  | .cons k v kvs, key => if k = key then some v else dictLookup kvs key

/-- Whether a mapping node binds a key. -/
def dictHasKey (kvs : MatDict) (key : String) : Bool :=
  (dictLookup kvs key).isSome

/-- Lexicographic code-point comparison of character lists (how Python
orders `str` keys under `sorted`). -/
def charsLt : List Char → List Char → Bool
  | [], [] => false
  | [], _ :: _ => true
  | _ :: _, [] => false
  | c :: cs, d :: ds =>
      if c.toNat < d.toNat then true
      else if d.toNat < c.toNat then false
      else charsLt cs ds

/-- String comparison by code points. -/
def strLt (a b : String) : Bool := charsLt a.data b.data

/-- Insert one binding into a key-sorted mapping (helper of `sortKV`). -/
def insertKV (k : String) (v : Mat) : MatDict → MatDict
  | .nil => .cons k v .nil
  | .cons k' v' rest =>
      if strLt k k' then .cons k v (.cons k' v' rest)
      else .cons k' v' (insertKV k v rest)

/-- Sort a mapping by key (the canonical encoder's `sort_keys = True`). -/
def sortKV : MatDict → MatDict
  | .nil => .nil
  | .cons k v rest => insertKV k v (sortKV rest)

/-- The mapping's keys are strictly increasing (canonical order, no
duplicates). -/
def sortedKV : MatDict → Bool
  | .nil => true
  | .cons _ _ .nil => true
  | .cons k _ (.cons k' v' rest) =>
      strLt k k' && sortedKV (.cons k' v' rest)

/-! ## Reference codec (`_json_default`, `_json_object_hook`,
`json_serialise`, `json_decode`) -/

/-- The reserved sentinel key `PIPEDAG_TYPE = '_pipedag_type_'`. -/
def PIPEDAG_TYPE : String := "_pipedag_type_"

/-- Sentinel value `PIPEDAG_TYPE_TABLE = 'table'`. -/
def PIPEDAG_TYPE_TABLE : String := "table"

/-- Sentinel value `PIPEDAG_TYPE_BLOB = 'blob'`. -/
def PIPEDAG_TYPE_BLOB : String := "blob"

mutual

/-- The JSON tree the canonical encoder serialises: `_json_default` turns a
table reference into the tagged object with fields `schema`, `name` and
`cache_key` (listed here in the key-sorted order `sort_keys = True` emits),
and every mapping is emitted with its keys sorted. -/
def jsonEncodeTree : Mat → Mat
  | .str s => .str s
  | .int n => .int n
  | .bool b => .bool b
  | .null => .null
  | .table t =>
      .dict (.cons PIPEDAG_TYPE (.str PIPEDAG_TYPE_TABLE)
        (.cons "cache_key" (.str t.cache_key)
          (.cons "name" (.str t.name)
            (.cons "schema" (.str t.schema.name) .nil))))
  | .list xs => .list (jsonEncodeList xs)
  | .dict kvs => .dict (sortKV (jsonEncodeDict kvs))

def jsonEncodeList : MatList → MatList
  | .nil => .nil
  | .cons x xs => .cons (jsonEncodeTree x) (jsonEncodeList xs)

def jsonEncodeDict : MatDict → MatDict
  | .nil => .nil
  | .cons k v kvs => .cons k (jsonEncodeTree v) (jsonEncodeDict kvs)

end

/-- JSON string escaping (`ensure_ascii = False`: non-ASCII passes through;
quotes, backslashes and control characters are escaped). -/
def escapeChar (c : Char) : List Char :=
  if c = '"' then ['\\', '"']
  else if c = '\\' then ['\\', '\\']
  else if c = '\n' then ['\\', 'n']
  else if c = '\t' then ['\\', 't']
  else if c = '\r' then ['\\', 'r']
  else if c.toNat < 0x20 then
    ['\\', 'u', '0', '0', hexDigit (c.toNat >>> 4), hexDigit (c.toNat &&& 0xF)]
  else [c]

/-- A JSON string literal. -/
def quoteStr (s : String) : String :=
  ⟨'"' :: s.data.flatMap escapeChar ++ ['"']⟩

mutual

/-- Canonical JSON text of an encoded tree: compact separators `(',', ':')`,
sorted keys (already established by `jsonEncodeTree`), UTF-8. A table leaf
prints as the tagged object `_json_default` substitutes for it. -/
def printMat : Mat → String
  | .str s => quoteStr s
  | .int n => toString n
  | .bool true => "true"
  | .bool false => "false"
  | .null => "null"
  | .table t =>
      "\x7b" ++ quoteStr PIPEDAG_TYPE ++ ":" ++ quoteStr PIPEDAG_TYPE_TABLE
        ++ "," ++ quoteStr "cache_key" ++ ":" ++ quoteStr t.cache_key
        ++ "," ++ quoteStr "name" ++ ":" ++ quoteStr t.name
        ++ "," ++ quoteStr "schema" ++ ":" ++ quoteStr t.schema.name ++ "\x7d"
  | .list xs => "[" ++ printMatList xs ++ "]"
  | .dict kvs => "\x7b" ++ printMatDict kvs ++ "\x7d"

def printMatList : MatList → String
  | .nil => ""
  | .cons x .nil => printMat x
  | .cons x (.cons y ys) => printMat x ++ "," ++ printMatList (.cons y ys)

def printMatDict : MatDict → String
  | .nil => ""
  | .cons k v .nil => quoteStr k ++ ":" ++ printMat v
  | .cons k v (.cons k' v' kvs) =>
      quoteStr k ++ ":" ++ printMat v ++ "," ++ printMatDict (.cons k' v' kvs)

end

/-- Source `PipeDAGStore.json_serialise`: canonical JSON text of an output tree
(`json.JSONEncoder(ensure_ascii = False, allow_nan = False,
separators = (',', ':'), sort_keys = True, default = _json_default)`). -/
def json_serialise (value : Mat) : String :=
  printMat (jsonEncodeTree value)

/-- Source `_json_object_hook` applied to one (already decoded) parsed object:
a truthy `'_pipedag_type_'` value selects the reference decoding — `'table'`
rebuilds a `Table` resolving the stage against the registry, `'blob'` raises
`NotImplementedError`, anything else raises `ValueError`; objects without a
truthy tag pass through as plain mappings. The tagged object's `name`,
`schema` and `cache_key` fields are strings in every tree the encoder
produces; a non-string field is reported as `typeError`. -/
def jsonObjectHook (registry : List (String × Schema)) (kvs : MatDict) :
    Except Err Mat :=
  match dictLookup kvs PIPEDAG_TYPE with
  | none => .ok (.dict kvs)
  | some v =>
    if matTruthy v = false then .ok (.dict kvs)
    else if v = .str PIPEDAG_TYPE_TABLE then
      match dictLookup kvs "name" with
      | none => .error (.keyError "name")
      | some nameV =>
        match dictLookup kvs "schema" with
        | none => .error (.keyError "schema")
        | some schemaV =>
          match dictLookup kvs "cache_key" with
          | none => .error (.keyError "cache_key")
          | some ckV =>
            match nameV, schemaV, ckV with
            | .str nm, .str sn, .str ck =>
              match alookup registry sn with
              | none => .error (.unknownStage sn)
              | some sch => .ok (.table ⟨sch, nm, ck⟩)
            | _, _, _ => .error .typeError
    else if v = .str PIPEDAG_TYPE_BLOB then .error .notImplemented
    else .error .valueError

mutual

/-- Source `PipeDAGStore.json_decode` on the parsed JSON tree:
`json.loads(value, object_hook = _json_object_hook)` applies the hook to
every object, innermost first. The `json` module itself (text to tree) is
external library code; its round trip on canonical text is the identity,
so decoding is modelled on the tree the encoder produced. -/
def jsonDecodeTree (registry : List (String × Schema)) : Mat → Except Err Mat
  | .str s => .ok (.str s)
  | .int n => .ok (.int n)
  | .bool b => .ok (.bool b)
  | .null => .ok .null
  | .table t => .ok (.table t)
  | .list xs =>
    match jsonDecodeList registry xs with
    | .ok ys => .ok (.list ys)
    | .error e => .error e
  | .dict kvs =>
    match jsonDecodeDict registry kvs with
    | .ok kvs' => jsonObjectHook registry kvs'
    | .error e => .error e

def jsonDecodeList (registry : List (String × Schema)) :
    MatList → Except Err MatList
  | .nil => .ok .nil
  | .cons x xs =>
    match jsonDecodeTree registry x with
    | .error e => .error e
    | .ok y =>
      match jsonDecodeList registry xs with
      | .error e => .error e
      | .ok ys => .ok (.cons y ys)

def jsonDecodeDict (registry : List (String × Schema)) :
    MatDict → Except Err MatDict
  | .nil => .ok .nil
  | .cons k v kvs =>
    match jsonDecodeTree registry v with
    | .error e => .error e
    | .ok w =>
      match jsonDecodeDict registry kvs with
      | .error e => .error e
      | .ok ws => .ok (.cons k w ws)

end

/-! ## Decimal formatting (`f'{n:04d}'`) -/

/-- Decimal digits of `n`, least significant first (`fuel` bounds the
recursion; `decDigitsLE` supplies `n + 1`, which always suffices). -/
def decDigitsLEGo : Nat → Nat → List Nat
  | 0, _ => []
  | fuel + 1, n => if n < 10 then [n] else n % 10 :: decDigitsLEGo fuel (n / 10)

def decDigitsLE (n : Nat) : List Nat :=
  decDigitsLEGo (n + 1) n

/-- The value of a little-endian digit list. -/
def valLE : List Nat → Nat
  | [] => 0
  | d :: ds => d + 10 * valLE ds

/-- Python `f'{n:04d}'` for a natural number: the decimal digits,
left-padded with zeros to at least four characters. -/
def pad4 (n : Nat) : String :=
  let ds := (decDigitsLE n).reverse.map hexDigit
  ⟨List.replicate (4 - ds.length) '0' ++ ds⟩

/-- The name `materialise_mutator` assigns to the `k`-th table reference:
`f'{task.original_name}_{next(tbl_id):04d}_{task.cache_key}'`. -/
def tableName (original_name cache_key : String) (k : Nat) : String :=
  original_name ++ "_" ++ pad4 k ++ "_" ++ cache_key

/-! ## The materialisation store (`PipeDAGStore`) -/

/-- Task identity as `materialise_task` / `compute_task_cache_key` /
`retrieve_cached_output` consume it (`MaterialisingTask` lives outside
src/; these are exactly the attributes the store reads). -/
structure MTask where
  original_name : String
  version : Option String
  schema : Schema
  cache_key : String
  lazy : Bool
deriving DecidableEq, Repr

/-- A task metadata record (`pdpipedag.core.metadata.TaskMetadata`), with
the fields `materialise_task` fills in. The wall-clock `timestamp` is
ambient real time and is not modelled. -/
structure TaskMetadata where
  name : String
  schema : String
  version : Option String
  run_id : String
  cache_key : String
  output_json : String
deriving DecidableEq, Repr

/-- Calls the store issues across the table-store boundary, in order. -/
inductive TSOp where
  | createSchema (s : Schema)
  | swapSchema (s : Schema)
  | storeTable (t : Table) (lazy : Bool)
  | storeTaskMetadata (m : TaskMetadata)
  | retrieveTaskMetadata (name : String) (cache_key : String)
deriving DecidableEq, Repr

/-- The store's own mutable state: the stage registry `schemas` (each stage
under both of its keys), the `swapped_schemas` set (kept as the list of
added names), and the per-process `run_id`. -/
structure StoreState where
  schemas : List (String × Schema)
  swapped_schemas : List String
  run_id : String
deriving DecidableEq, Repr

/-- Outcome of one store operation: the state after the call, the
table-store calls it issued, the surfaced error (if any), and the returned
value (on success, for operations that return one). -/
structure StoreResult (α : Type) where
  state : StoreState
  ops : List TSOp
  error : Option Err
  value : Option α
deriving DecidableEq, Repr

/-- Source `PipeDAGStore.create_schema`: reject if either the name or the working
name is already a registry key, otherwise insert the stage under both keys
and ask the table store to create it. -/
def create_schema (st : StoreState) (s : Schema) : StoreResult Unit :=
  if (alookup st.schemas s.name).isSome then
    ⟨st, [], some (.schemaExists s.name), none⟩
  else if (alookup st.schemas s.working_name).isSome then
    ⟨st, [], some (.schemaWorkingExists s.working_name), none⟩
  else
    ⟨{ st with schemas := aupdate (aupdate st.schemas s.name s) s.working_name s },
     [.createSchema s], none, some ()⟩

/-- Source `PipeDAGStore.swap_schema`: reject if the stage is already in the
swapped set; otherwise add its name to the swapped set *first* and only
then invoke the table store's atomic swap (whose success is the ambient
parameter `tableSwapOk`); a table-store failure is surfaced after the set
was already grown. (`schema.perform_swap()` only flips the stage's own
flag and lives outside src/.) -/
def swap_schema (st : StoreState) (s : Schema) (tableSwapOk : Bool) :
    StoreResult Unit :=
  if s.name ∈ st.swapped_schemas then
    ⟨st, [], some (.swapAlreadySwapped s.name), none⟩
  else
    let st' := { st with swapped_schemas := st.swapped_schemas ++ [s.name] }
    if tableSwapOk then ⟨st', [.swapSchema s], none, some ()⟩
    else ⟨st', [.swapSchema s], some .tableStoreError, none⟩

mutual

/-- Modelled from the spec: `deepmutate` (`pdpipedag.core.util`) is not
under src/; per the spec it walks the tree in deterministic pre-order and
replaces each node the mutator rewrites. Here it is fused with
`materialise_mutator`: each table reference encountered is assigned the
task's stage, the counter-derived name and the task's cache key, and is
recorded (in walk order) for `store_table`. Returns the rewritten node,
the next counter value and the tables stored. -/
def matWalk (orig ck : String) (sch : Schema) :
    Mat → Nat → Mat × Nat × List Table
  | .table _, k =>
      (.table ⟨sch, tableName orig ck k, ck⟩, k + 1, [⟨sch, tableName orig ck k, ck⟩])
  | .list xs, k =>
      let r := matWalkList orig ck sch xs k
      (.list r.1, r.2.1, r.2.2)
  | .dict kvs, k =>
      let r := matWalkDict orig ck sch kvs k
      (.dict r.1, r.2.1, r.2.2)
  | x, k => (x, k, [])

def matWalkList (orig ck : String) (sch : Schema) :
    MatList → Nat → MatList × Nat × List Table
  | .nil, k => (.nil, k, [])
  | .cons x xs, k =>
      let r := matWalk orig ck sch x k
      let r' := matWalkList orig ck sch xs r.2.1
      (.cons r.1 r'.1, r'.2.1, r.2.2 ++ r'.2.2)

def matWalkDict (orig ck : String) (sch : Schema) :
    MatDict → Nat → MatDict × Nat × List Table
  | .nil, k => (.nil, k, [])
  | .cons key v kvs, k =>
      let r := matWalk orig ck sch v k
      let r' := matWalkDict orig ck sch kvs r.2.1
      (.cons key r.1 r'.1, r'.2.1, r.2.2 ++ r'.2.2)

end

/-- Source `PipeDAGStore.materialise_task`: assert the task's stage is registered
(no check against the swapped set), walk the output assigning stage, name
and cache key to each table reference and storing it, then serialise the
rewritten output and write the metadata record. Returns the rewritten
output. -/
def materialise_task (st : StoreState) (task : MTask) (value : Mat) :
    StoreResult Mat :=
  if (alookup st.schemas task.schema.name).isNone then
    ⟨st, [], some .assertionFailed, none⟩
  else
    let r := matWalk task.original_name task.cache_key task.schema value 0
    let metadata : TaskMetadata :=
      ⟨task.original_name, task.schema.name, task.version, st.run_id,
       task.cache_key, json_serialise r.1⟩
    ⟨st, r.2.2.map (fun t => .storeTable t task.lazy)
          ++ [.storeTaskMetadata metadata],
     none, some r.1⟩

/-- Source `PipeDAGStore.retrieve_cached_output`: fail if the task's stage is in
the swapped set, *before* consulting the table store; otherwise look the
metadata up (`meta` is the table store's answer, paired with the parsed
tree of its `output_json`; `none` is the store's `CacheMiss`) and decode
the output tree against the store's registry. -/
def retrieve_cached_output (st : StoreState) (task : MTask)
    (meta : Option (TaskMetadata × Mat)) : StoreResult Mat :=
  if task.schema.name ∈ st.swapped_schemas then
    ⟨st, [], some .schemaAlreadySwapped, none⟩
  else
    match meta with
    | none =>
        ⟨st, [.retrieveTaskMetadata task.original_name task.cache_key],
         some .cacheMiss, none⟩
    | some (_, tree) =>
        match jsonDecodeTree st.schemas tree with
        | .ok out =>
            ⟨st, [.retrieveTaskMetadata task.original_name task.cache_key],
             none, some out⟩
        | .error e =>
            ⟨st, [.retrieveTaskMetadata task.original_name task.cache_key],
             some e, none⟩

/-- The tables a list of table-store calls persisted, in call order. -/
def tablesOfOps : List TSOp → List Table
  | [] => []
  | .storeTable t _ :: ops => t :: tablesOfOps ops
  | _ :: ops => tablesOfOps ops

/-- The tables an operation stored, in call order. -/
def storedTables {α : Type} (r : StoreResult α) : List Table :=
  tablesOfOps r.ops

/-! ## Lock manager (`pdpipedag/backend/lock.py`) -/

/-- Source `LockState`: the four states of the lock-state machine. -/
inductive LockState where
  | UNLOCKED
  | LOCKED
  | UNCERTAIN
  | INVALID
deriving DecidableEq, Repr

/-- Source `Lockable = Union[Schema, str]`, equality by value. -/
inductive Lockable where
  | schema (s : Schema)
  | str (s : String)
deriving DecidableEq, Repr

/-- State of `BaseLockManager`: the shared state holds the `lock_states` map (a defaultdict
whose default is `UNLOCKED`) and the transitions broadcast to the
registered listeners, in order (`events` is the common observation of every
listener). -/
structure LMState where
  lockStates : List (Lockable × LockState)
  events : List (Lockable × LockState × LockState)
deriving DecidableEq, Repr

/-- Source `BaseLockManager.set_lock_state`: an untracked lockable is inserted and
the listeners are told it moved from the default `UNLOCKED` to the new
state (even when the new state is `UNLOCKED` itself); a tracked lockable is
updated and the listeners are told only if the state actually changed;
finally, a lockable whose new state is `UNLOCKED` is purged from the map. -/
def set_lock_state (st : LMState) (l : Lockable) (new : LockState) : LMState :=
  let st1 : LMState :=
    match alookup st.lockStates l with
    | none =>
        ⟨aupdate st.lockStates l new, st.events ++ [(l, .UNLOCKED, new)]⟩
    | some old =>
        ⟨aupdate st.lockStates l new,
         if old ≠ new then st.events ++ [(l, old, new)] else st.events⟩
  if new = .UNLOCKED then ⟨aremove st1.lockStates l, st1.events⟩ else st1

/-- Source `BaseLockManager.get_lock_state`: reading the defaultdict yields
`UNLOCKED` for an untracked lockable. -/
def get_lock_state (st : LMState) (l : Lockable) : LockState :=
  (alookup st.lockStates l).getD .UNLOCKED

/-- Source `NoLockManager.acquire`: immediately sets `LOCKED`. -/
def noAcquire (st : LMState) (l : Lockable) : LMState :=
  set_lock_state st l .LOCKED

/-- Source `NoLockManager.release`: immediately sets `UNLOCKED`; it never raises,
whether or not the lockable was ever acquired. -/
def noRelease (st : LMState) (l : Lockable) : LMState × Option Err :=
  (set_lock_state st l .UNLOCKED, none)

/-- State of `FileLockManager`: the shared lock-state machine plus the
`locks` map of `filelock.FileLock` handles, each modelled by its
acquisition count (the `filelock` library is external; its locks are
reentrant and report `is_locked` while the count is positive). -/
structure FLState where
  lm : LMState
  locks : List (Lockable × Nat)
deriving DecidableEq, Repr

/-- Source `FileLockManager.acquire`: create the handle on first use, acquire it
(count + 1) and set `LOCKED`. -/
def flAcquire (st : FLState) (l : Lockable) : FLState :=
  let cnt := (alookup st.locks l).getD 0
  ⟨set_lock_state st.lm l .LOCKED, aupdate st.locks l (cnt + 1)⟩

/-- Source `FileLockManager.release`: raise `LockError` if no handle exists for
the lockable; otherwise release once and, when the last holder leaves
(count reaches zero), delete the lock file, drop the handle and set
`UNLOCKED`. -/
def flRelease (st : FLState) (l : Lockable) : FLState × Option Err :=
  match alookup st.locks l with
  | none => (st, some .lockError)
  | some cnt =>
      if cnt - 1 = 0 then
        (⟨set_lock_state st.lm l .UNLOCKED, aremove st.locks l⟩, none)
      else (⟨st.lm, aupdate st.locks l (cnt - 1)⟩, none)

/-- State of `ZooKeeperLockManager`: the shared lock-state machine plus the
`locks` map of ZooKeeper lock recipes the manager believes it holds (the
`kazoo` client is external; a handle is just its presence). -/
structure ZKState where
  lm : LMState
  locks : List (Lockable × Unit)
deriving DecidableEq, Repr

/-- Source `ZooKeeperLockManager.acquire`: a failed coordinator acquisition
(ambient `acquireOk = false`) raises `LockError` without touching state;
otherwise record the held lock and set `LOCKED`. -/
def zkAcquire (st : ZKState) (l : Lockable) (acquireOk : Bool) :
    ZKState × Option Err :=
  if acquireOk then
    (⟨set_lock_state st.lm l .LOCKED, aupdate st.locks l ()⟩, none)
  else (st, some .lockError)

/-- Source `ZooKeeperLockManager.release`: raise `LockError` if the manager holds
no lock for the lockable; otherwise release it, drop the handle and set
`UNLOCKED`. -/
def zkRelease (st : ZKState) (l : Lockable) : ZKState × Option Err :=
  match alookup st.locks l with
  | none => (st, some .lockError)
  | some _ =>
      (⟨set_lock_state st.lm l .UNLOCKED, aremove st.locks l⟩, none)

/-! ## Round-trip side conditions and decimal parsing -/

mutual

/-- The side conditions under which the codec round-trips: every mapping is
in canonical form (strictly sorted keys, hence no duplicates) and does not
use the reserved sentinel key, and every table reference names a stage the
registry maps back to that very stage. -/
def matGood (reg : List (String × Schema)) : Mat → Bool
  | .str _ => true
  | .int _ => true
  | .bool _ => true
  | .null => true
  | .table t => decide (alookup reg t.schema.name = some t.schema)
  | .list xs => matListGood reg xs
  | .dict kvs =>
      sortedKV kvs && !(dictHasKey kvs PIPEDAG_TYPE) && matDictGood reg kvs

def matListGood (reg : List (String × Schema)) : MatList → Bool
  | .nil => true
  | .cons x xs => matGood reg x && matListGood reg xs

def matDictGood (reg : List (String × Schema)) : MatDict → Bool
  | .nil => true
  | .cons _ v kvs => matGood reg v && matDictGood reg kvs

end

/-- Read a zero-padded decimal numeral back (left inverse of `pad4`). -/
def parsePad (s : String) : Nat :=
  s.data.foldl (fun a c => a * 10 + (c.toNat - 48)) 0

/-! ## Concrete example fixtures -/

def exSchema : Schema := ⟨"S", "S_wip"⟩

def exSt0 : StoreState := ⟨[], [], "run0"⟩

def exSt1 : StoreState := (create_schema exSt0 exSchema).state

def exSt2 : StoreState := (swap_schema exSt1 exSchema true).state

def exTask : MTask := ⟨"build", some "v1", exSchema, "4be4cb8e0d67e4c2fa65", false⟩

def exReg : List (String × Schema) := [("S", exSchema)]

/-- A well-formed output tree: sorted mapping, scalars, a sequence, and a
table reference into the registered stage `S`. -/
def exTree : Mat :=
  .dict (.cons "a" (.int 1)
    (.cons "b" (.list (.cons (.table ⟨exSchema, "t_0000_abc", "abc"⟩)
      (.cons (.str "x") .nil))) .nil))

/-- A plain string-keyed mapping that happens to use the reserved sentinel
key: the decoder mistakes it for an encoded table reference. -/
def exBad : Mat :=
  .dict (.cons "_pipedag_type_" (.str "table")
    (.cons "cache_key" (.str "c")
      (.cons "name" (.str "n")
        (.cons "schema" (.str "S") .nil))))

/-! ## Association-list lemmas -/

theorem alookup_aupdate {κ β : Type} [DecidableEq κ] :
    ∀ (kvs : List (κ × β)) (k : κ) (v : β), alookup (aupdate kvs k v) k = some v
  | [], k, v => by simp [aupdate, alookup]
  | (k', w) :: kvs, k, v => by
      by_cases h : k' = k
      · simp [aupdate, alookup, h]
      · simp [aupdate, alookup, h, alookup_aupdate kvs k v]

theorem alookup_aupdate_ne {κ β : Type} [DecidableEq κ] :
    ∀ (kvs : List (κ × β)) (k k' : κ) (v : β), k' ≠ k →
      alookup (aupdate kvs k v) k' = alookup kvs k'
  | [], k, k', v, h => by simp [aupdate, alookup, Ne.symm h]
  | (k₀, w) :: kvs, k, k', v, h => by
      by_cases h₀ : k₀ = k
      · subst h₀
        simp [aupdate, alookup, Ne.symm h]
      · simp only [aupdate, if_neg h₀, alookup]
        by_cases h₁ : k₀ = k'
        · simp [h₁]
        · simp [h₁, alookup_aupdate_ne kvs k k' v h]

theorem aupdate_aupdate {κ β : Type} [DecidableEq κ] :
    ∀ (kvs : List (κ × β)) (k : κ) (v w : β),
      aupdate (aupdate kvs k v) k w = aupdate kvs k w
  | [], k, v, w => by simp [aupdate]
  | (k', u) :: kvs, k, v, w => by
      by_cases h : k' = k
      · simp [aupdate, h]
      · simp [aupdate, h, aupdate_aupdate kvs k v w]

theorem aremove_aupdate_of_none {κ β : Type} [DecidableEq κ] :
    ∀ (kvs : List (κ × β)) (k : κ) (v : β), alookup kvs k = none →
      aremove (aupdate kvs k v) k = kvs
  | [], k, v, _ => by simp [aupdate, aremove]
  | (k', u) :: kvs, k, v, h => by
      by_cases h₀ : k' = k
      · simp [alookup, h₀] at h
      · have h' : alookup kvs k = none := by
          simpa [alookup, h₀] using h
        simp [aupdate, aremove, h₀, aremove_aupdate_of_none kvs k v h']

/-! ## Claim C3 -/

/-- C3 (counterexample): the claim reads the cache key of a task with
version `""` as the SHA-256 of `"PYDIVERSE-PIPEDAG-TASK|build||\x7b\x7d"`,
but `task.version or 'None'` replaces the empty (falsy) version string by
`"None"`, so the computed key differs from the claimed digest. -/
theorem claim_C3_counterexample :
    compute_task_cache_key "build" (some "") "\x7b\x7d" ≠
      ⟨(sha256Hex (utf8Bytes "PYDIVERSE-PIPEDAG-TASK|build||\x7b\x7d")).data.take 20⟩ := by
  decide

/-- C3 (amended): for every non-empty version string v the cache key is the
first 20 hex characters of SHA-256 of the pipe-joined record with v; for a
missing version (None) and likewise for the empty version string the
literal `"None"` is hashed instead; and on the concrete scenario
(original_name `"build"`, version `"v1"`, input `"\x7b\x7d"`) the key is the
first 20 hex characters of
`SHA-256("PYDIVERSE-PIPEDAG-TASK|build|v1|\x7b\x7d")`, namely
`"4be4cb8e0d67e4c2fa65"`. -/
theorem claim_C3_amended :
    (∀ name v j, v ≠ "" →
      compute_task_cache_key name (some v) j =
        ⟨(sha256Hex (utf8Bytes
            ("PYDIVERSE-PIPEDAG-TASK" ++ "|" ++ name ++ "|" ++ v ++ "|" ++ j))).data.take 20⟩) ∧
    (∀ name j,
      compute_task_cache_key name none j =
        ⟨(sha256Hex (utf8Bytes
            ("PYDIVERSE-PIPEDAG-TASK" ++ "|" ++ name ++ "|" ++ "None" ++ "|" ++ j))).data.take 20⟩) ∧
    (∀ name j,
      compute_task_cache_key name (some "") j =
        ⟨(sha256Hex (utf8Bytes
            ("PYDIVERSE-PIPEDAG-TASK" ++ "|" ++ name ++ "|" ++ "None" ++ "|" ++ j))).data.take 20⟩) ∧
    compute_task_cache_key "build" (some "v1") "\x7b\x7d" =
      ⟨(sha256Hex (utf8Bytes "PYDIVERSE-PIPEDAG-TASK|build|v1|\x7b\x7d")).data.take 20⟩ ∧
    compute_task_cache_key "build" (some "v1") "\x7b\x7d" = "4be4cb8e0d67e4c2fa65" := by
  refine ⟨fun name v j h => ?_, fun name j => rfl, fun name j => rfl, by decide, by decide⟩
  unfold compute_task_cache_key
  simp only [versionOrNone, if_neg h]
  rfl

/-- C3 (witness): the amended theorem applied at the concrete scenario. -/
theorem claim_C3_witness :
    compute_task_cache_key "build" (some "v1") "\x7b\x7d" =
      ⟨(sha256Hex (utf8Bytes
          ("PYDIVERSE-PIPEDAG-TASK" ++ "|" ++ "build" ++ "|" ++ "v1" ++ "|" ++ "\x7b\x7d"))).data.take 20⟩ :=
  claim_C3_amended.1 "build" "v1" "\x7b\x7d" (by decide)

/-! ## Claim C10 -/

/-- C10: a task whose version is the empty string hashes identically to a
task with no version at all — `task.version or 'None'` replaces both by the
literal `"None"`, so the cache cannot distinguish them. -/
theorem claim_C10 :
    ∀ name j, compute_task_cache_key name (some "") j
      = compute_task_cache_key name none j :=
  fun _ _ => rfl

/-! ## Claim C5 -/

/-- C5 (counterexample): the claim expects the table-reference object to
carry a field named `stage`; `_json_default` emits the field under the key
`schema`, so the claimed canonical text is not what the encoder produces. -/
theorem claim_C5_counterexample :
    json_serialise (.dict (.cons "k"
        (.list (.cons (.table ⟨⟨"S", "S_wip"⟩, "t_0000_abc", "abc"⟩) .nil)) .nil)) ≠
      "\x7b\"k\":[\x7b\"_pipedag_type_\":\"table\",\"cache_key\":\"abc\",\"name\":\"t_0000_abc\",\"stage\":\"S\"\x7d]\x7d" := by
  decide

/-- C5 (amended): a table reference encodes as the canonical-JSON object
whose reserved key `_pipedag_type_` has value `"table"` and whose remaining
fields are `schema`, `name` and `cache_key`; the example tree encodes to
exactly the canonical text with `"schema":"S"`. -/
theorem claim_C5_amended :
    (∀ t : Table, jsonEncodeTree (.table t) =
      .dict (.cons "_pipedag_type_" (.str "table")
        (.cons "cache_key" (.str t.cache_key)
          (.cons "name" (.str t.name)
            (.cons "schema" (.str t.schema.name) .nil))))) ∧
    json_serialise (.dict (.cons "k"
        (.list (.cons (.table ⟨⟨"S", "S_wip"⟩, "t_0000_abc", "abc"⟩) .nil)) .nil)) =
      "\x7b\"k\":[\x7b\"_pipedag_type_\":\"table\",\"cache_key\":\"abc\",\"name\":\"t_0000_abc\",\"schema\":\"S\"\x7d]\x7d" :=
  ⟨fun _ => rfl, by decide⟩

/-! ## Claim C2 -/

/-- C2 (counterexample): `swap_schema` adds the stage to the swapped set
*before* invoking the table store's swap; on a failing table-store swap the
error is surfaced yet the stage sits in the swapped set, contradicting the
claim that the swapped set is unchanged on error. -/
theorem claim_C2_counterexample :
    (swap_schema exSt1 exSchema false).error = some .tableStoreError ∧
    exSchema.name ∈ (swap_schema exSt1 exSchema false).state.swapped_schemas := by
  decide

/-- C2 (amended): a swap of an already-swapped stage is rejected untouched;
otherwise the stage's name is added to the swapped set before the table
store swap runs, the swap primitive is invoked exactly once, and the error
is surfaced iff the table store fails — in which case the stage remains in
the swapped set. -/
theorem claim_C2_amended :
    (∀ (st : StoreState) (s : Schema) (ok : Bool), s.name ∈ st.swapped_schemas →
      swap_schema st s ok = ⟨st, [], some (.swapAlreadySwapped s.name), none⟩) ∧
    (∀ (st : StoreState) (s : Schema) (ok : Bool), s.name ∉ st.swapped_schemas →
      s.name ∈ (swap_schema st s ok).state.swapped_schemas ∧
      (swap_schema st s ok).ops = [.swapSchema s] ∧
      ((swap_schema st s ok).error = none ↔ ok = true)) := by
  constructor
  · intro st s ok h
    simp [swap_schema, h]
  · intro st s ok h
    cases ok <;> simp [swap_schema, h]

/-- C2 (witness): the amended theorem applied to a fresh stage (both on the
successful and the failing table-store path) and to an already-swapped one. -/
theorem claim_C2_witness :
    (swap_schema exSt2 exSchema true
      = ⟨exSt2, [], some (.swapAlreadySwapped exSchema.name), none⟩) ∧
    exSchema.name ∈ (swap_schema exSt1 exSchema false).state.swapped_schemas ∧
    ((swap_schema exSt1 exSchema false).error = none ↔ false = true) :=
  ⟨claim_C2_amended.1 exSt2 exSchema true (by decide),
   (claim_C2_amended.2 exSt1 exSchema false (by decide)).1,
   (claim_C2_amended.2 exSt1 exSchema false (by decide)).2.2⟩

/-! ## Claim C8 -/

/-- C8: registering a stage whose name or working name is already a
registry key fails with the duplicate-stage `SchemaError` and leaves the
registry (and everything else) exactly as it was — the checks run before
either insertion, so no partial registration is observable; and a
successful registration inserts the stage under both of its keys (which is
why a collision with either key of any registered stage is caught). -/
theorem claim_C8 :
    (∀ (st : StoreState) (s : Schema),
      ((alookup st.schemas s.name).isSome ∨ (alookup st.schemas s.working_name).isSome) →
        (create_schema st s).error.isSome ∧
        (create_schema st s).state = st ∧
        (create_schema st s).ops = [] ∧
        (create_schema st s).value = none) ∧
    (∀ (st : StoreState) (s : Schema), (create_schema st s).error = none →
      alookup (create_schema st s).state.schemas s.name = some s ∧
      alookup (create_schema st s).state.schemas s.working_name = some s) := by
  constructor
  · intro st s h
    by_cases h₁ : (alookup st.schemas s.name).isSome
    · simp [create_schema, h₁]
    · rcases h with h | h₂
      · exact absurd h h₁
      · simp [create_schema, h₁, h₂]
  · intro st s h
    by_cases h₁ : (alookup st.schemas s.name).isSome
    · simp [create_schema, h₁] at h
    · by_cases h₂ : (alookup st.schemas s.working_name).isSome
      · simp [create_schema, h₁, h₂] at h
      · have hcs : (create_schema st s).state.schemas
            = aupdate (aupdate st.schemas s.name s) s.working_name s := by
          simp [create_schema, h₁, h₂]
        constructor
        · by_cases hnw : s.name = s.working_name
          · rw [hcs, hnw, aupdate_aupdate, alookup_aupdate]
          · rw [hcs, alookup_aupdate_ne _ _ _ _ hnw, alookup_aupdate]
        · rw [hcs, alookup_aupdate]

/-- C8 (witness): registering a stage whose name collides with the
registered stage `S` is rejected with the registry unchanged, and the
successful registration of `S` itself occupies both keys. -/
theorem claim_C8_witness :
    ((create_schema exSt1 ⟨"S", "X"⟩).error.isSome ∧
     (create_schema exSt1 ⟨"S", "X"⟩).state = exSt1 ∧
     (create_schema exSt1 ⟨"S", "X"⟩).ops = [] ∧
     (create_schema exSt1 ⟨"S", "X"⟩).value = none) ∧
    (alookup (create_schema exSt0 exSchema).state.schemas exSchema.name = some exSchema ∧
     alookup (create_schema exSt0 exSchema).state.schemas exSchema.working_name = some exSchema) :=
  ⟨claim_C8.1 exSt1 ⟨"S", "X"⟩ (Or.inl (by decide)),
   claim_C8.2 exSt0 exSchema (by decide)⟩

/-! ## Claim C1 -/

/-- C1 (counterexample): after a successful `swap_schema` of stage `S`,
`materialise_task` into `S` does *not* fail — it checks only that the
stage is registered, never the swapped set — and it still stores a table
and the metadata record. -/
theorem claim_C1_counterexample :
    (swap_schema exSt1 exSchema true).error = none ∧
    exTask.schema.name ∈ exSt2.swapped_schemas ∧
    (materialise_task exSt2 exTask (.table ⟨exSchema, "", ""⟩)).error = none ∧
    (materialise_task exSt2 exTask (.table ⟨exSchema, "", ""⟩)).ops ≠ [] := by
  decide

/-- C1 (amended): after a stage is in the swapped set,
`retrieve_cached_output` targeting it fails with the already-swapped
`SchemaError` before consulting the table store (no ops, no output);
`materialise_task`, however, performs no swap check — whenever the stage is
registered it succeeds and returns the rewritten value, swapped or not. -/
theorem claim_C1_amended :
    (∀ (st : StoreState) (task : MTask) (meta : Option (TaskMetadata × Mat)),
      task.schema.name ∈ st.swapped_schemas →
        retrieve_cached_output st task meta
          = ⟨st, [], some .schemaAlreadySwapped, none⟩) ∧
    (∀ (st : StoreState) (task : MTask) (v : Mat),
      (alookup st.schemas task.schema.name).isSome →
        (materialise_task st task v).error = none ∧
        (materialise_task st task v).value
          = some (matWalk task.original_name task.cache_key task.schema v 0).1) := by
  constructor
  · intro st task meta h
    simp [retrieve_cached_output, h]
  · intro st task v h
    rcases hx : alookup st.schemas task.schema.name with _ | s
    · rw [hx] at h
      simp at h
    · simp [materialise_task, hx]

/-- C1 (witness): the amended theorem applied to the swapped stage `S`
(for the retrieval guard) and to the freshly registered one (for the
unchecked materialisation). -/
theorem claim_C1_witness :
    (retrieve_cached_output exSt2 exTask none
      = ⟨exSt2, [], some .schemaAlreadySwapped, none⟩) ∧
    ((materialise_task exSt1 exTask Mat.null).error = none ∧
     (materialise_task exSt1 exTask Mat.null).value
       = some (matWalk exTask.original_name exTask.cache_key exTask.schema Mat.null 0).1) :=
  ⟨claim_C1_amended.1 exSt2 exTask none (by decide),
   claim_C1_amended.2 exSt1 exTask Mat.null (by decide)⟩

/-! ## Claim C6 -/

/-- C6 (counterexample): `NoLockManager.release` of a never-acquired
lockable does not raise `LockError`; it runs `set_lock_state(…, UNLOCKED)`,
which even broadcasts a spurious `(UNLOCKED, UNLOCKED)` transition to the
listeners, so the claim fails for the no-op backend. -/
theorem claim_C6_counterexample :
    (noRelease ⟨[], []⟩ (.str "L")).2 = none ∧
    (noRelease ⟨[], []⟩ (.str "L")).1.events
      = [(.str "L", .UNLOCKED, .UNLOCKED)] := by
  decide

/-- C6 (amended): for the file and ZooKeeper backends, releasing a
never-acquired lockable fails with `LockError` and leaves the whole state
(lock-state map, tracked-locks map and listener observations) unchanged;
the no-op backend instead succeeds, leaving the lock-state map unchanged
but broadcasting a `(UNLOCKED, UNLOCKED)` notification. -/
theorem claim_C6_amended :
    (∀ (st : FLState) (l : Lockable), alookup st.locks l = none →
      flRelease st l = (st, some .lockError)) ∧
    (∀ (st : ZKState) (l : Lockable), alookup st.locks l = none →
      zkRelease st l = (st, some .lockError)) ∧
    (∀ (st : LMState) (l : Lockable), alookup st.lockStates l = none →
      noRelease st l
        = (⟨st.lockStates, st.events ++ [(l, .UNLOCKED, .UNLOCKED)]⟩, none)) := by
  refine ⟨fun st l h => ?_, fun st l h => ?_, fun st l h => ?_⟩
  · simp [flRelease, h]
  · simp [zkRelease, h]
  · simp [noRelease, set_lock_state, h, aremove_aupdate_of_none]

/-- C6 (witness): the amended theorem applied to never-acquired lockables
of each backend, starting from empty state. -/
theorem claim_C6_witness :
    flRelease ⟨⟨[], []⟩, []⟩ (.str "L") = (⟨⟨[], []⟩, []⟩, some .lockError) ∧
    zkRelease ⟨⟨[], []⟩, []⟩ (.str "L") = (⟨⟨[], []⟩, []⟩, some .lockError) ∧
    noRelease ⟨[], []⟩ (.str "L")
      = (⟨[], [(.str "L", .UNLOCKED, .UNLOCKED)]⟩, none) :=
  ⟨claim_C6_amended.1 ⟨⟨[], []⟩, []⟩ (.str "L") rfl,
   claim_C6_amended.2.1 ⟨⟨[], []⟩, []⟩ (.str "L") rfl,
   claim_C6_amended.2.2 ⟨[], []⟩ (.str "L") rfl⟩

/-! ## Claim C7 -/

/-- One acquire/release pair on the no-op manager, starting untracked:
two transitions are broadcast and the entry is purged again. -/
theorem no_acquire_release (st : LMState) (l : Lockable)
    (h : alookup st.lockStates l = none) :
    (noRelease (noAcquire st l) l).1
      = ⟨st.lockStates,
         st.events ++ [(l, .UNLOCKED, .LOCKED), (l, .LOCKED, .UNLOCKED)]⟩ := by
  simp [noAcquire, noRelease, set_lock_state, h, alookup_aupdate,
    aupdate_aupdate, aremove_aupdate_of_none]

/-- C7: on the no-op manager, `acquire; release; acquire; release` of an
untracked lockable purges its entry after each release, ends with
`get_lock_state` reporting `UNLOCKED`, and broadcasts exactly four
transitions, in order `(UNLOCKED→LOCKED)`, `(LOCKED→UNLOCKED)`,
`(UNLOCKED→LOCKED)`, `(LOCKED→UNLOCKED)`. -/
theorem claim_C7 (st : LMState) (l : Lockable)
    (h : alookup st.lockStates l = none) :
    alookup ((noRelease (noAcquire st l) l).1.lockStates) l = none ∧
    alookup ((noRelease (noAcquire (noRelease (noAcquire st l) l).1 l) l).1.lockStates) l
      = none ∧
    get_lock_state (noRelease (noAcquire (noRelease (noAcquire st l) l).1 l) l).1 l
      = .UNLOCKED ∧
    (noRelease (noAcquire (noRelease (noAcquire st l) l).1 l) l).1.events
      = st.events ++ [(l, .UNLOCKED, .LOCKED), (l, .LOCKED, .UNLOCKED),
                      (l, .UNLOCKED, .LOCKED), (l, .LOCKED, .UNLOCKED)] := by
  have h1 := no_acquire_release st l h
  have h2 := no_acquire_release
    ⟨st.lockStates, st.events ++ [(l, .UNLOCKED, .LOCKED), (l, .LOCKED, .UNLOCKED)]⟩ l h
  rw [h1] at *
  refine ⟨h, ?_, ?_, ?_⟩
  · rw [h2]
    exact h
  · rw [h2]
    simp [get_lock_state, h]
  · rw [h2]
    simp

/-- C7 (witness): the theorem applied to a fresh manager and the lockable
`"L"`. -/
theorem claim_C7_witness :
    get_lock_state (noRelease (noAcquire (noRelease (noAcquire ⟨[], []⟩ (.str "L")) (.str "L")).1 (.str "L")) (.str "L")).1 (.str "L")
      = .UNLOCKED ∧
    (noRelease (noAcquire (noRelease (noAcquire ⟨[], []⟩ (.str "L")) (.str "L")).1 (.str "L")) (.str "L")).1.events
      = [] ++ [(.str "L", .UNLOCKED, .LOCKED), (.str "L", .LOCKED, .UNLOCKED),
               (.str "L", .UNLOCKED, .LOCKED), (.str "L", .LOCKED, .UNLOCKED)] :=
  ⟨(claim_C7 ⟨[], []⟩ (.str "L") rfl).2.2.1,
   (claim_C7 ⟨[], []⟩ (.str "L") rfl).2.2.2⟩

/-! ## Claim C4: codec round trip -/

/-- Encoding a mapping's values does not change which keys it binds. -/
theorem dictLookup_jsonEncodeDict_none (key : String) :
    ∀ kvs : MatDict, dictLookup kvs key = none →
      dictLookup (jsonEncodeDict kvs) key = none
  | .nil, _ => rfl
  | .cons k v rest, h => by
      by_cases hk : k = key
      · simp [dictLookup, hk] at h
      · have h' : dictLookup rest key = none := by simpa [dictLookup, hk] using h
        simp [jsonEncodeDict, dictLookup, hk,
          dictLookup_jsonEncodeDict_none key rest h']

/-- Encoding a mapping's values does not change key order. -/
theorem sortedKV_jsonEncodeDict :
    ∀ kvs : MatDict, sortedKV (jsonEncodeDict kvs) = sortedKV kvs
  | .nil => rfl
  | .cons _ _ .nil => rfl
  | .cons k v (.cons k' v' rest) => by
      have ih := sortedKV_jsonEncodeDict (.cons k' v' rest)
      simp only [jsonEncodeDict] at ih
      simp [jsonEncodeDict, sortedKV, ih]

/-- Sorting a canonically sorted mapping is the identity. -/
theorem sortKV_of_sorted :
    ∀ kvs : MatDict, sortedKV kvs = true → sortKV kvs = kvs
  | .nil, _ => rfl
  | .cons _ _ .nil, _ => rfl
  | .cons k v (.cons k' v' rest), h => by
      have h' : strLt k k' = true ∧ sortedKV (.cons k' v' rest) = true := by
        simpa [sortedKV, Bool.and_eq_true] using h
      show insertKV k v (sortKV (.cons k' v' rest)) = _
      rw [sortKV_of_sorted (.cons k' v' rest) h'.2]
      simp [insertKV, h'.1]

mutual

/-- Decoding inverts encoding on every tree satisfying the side
conditions (`matGood`). -/
theorem encodeDecodeMat (reg : List (String × Schema)) :
    ∀ x : Mat, matGood reg x = true →
      jsonDecodeTree reg (jsonEncodeTree x) = .ok x
  | .str _, _ => rfl
  | .int _, _ => rfl
  | .bool _, _ => rfl
  | .null, _ => rfl
  | .table t, h => by
      have h' : alookup reg t.schema.name = some t.schema :=
        of_decide_eq_true (by simpa [matGood] using h)
      have hred : jsonDecodeTree reg (jsonEncodeTree (.table t)) =
          (match alookup reg t.schema.name with
           | none => .error (.unknownStage t.schema.name)
           | some sch => .ok (.table ⟨sch, t.name, t.cache_key⟩)) := rfl
      rw [hred, h']
  | .list xs, h => by
      have ih := encodeDecodeList reg xs (by simpa [matGood] using h)
      simp [jsonEncodeTree, jsonDecodeTree, ih]
  | .dict kvs, h => by
      have hh : (sortedKV kvs = true ∧ !(dictHasKey kvs PIPEDAG_TYPE) = true) ∧
          matDictGood reg kvs = true := by
        simpa [matGood, Bool.and_eq_true] using h
      have hlk : dictLookup kvs PIPEDAG_TYPE = none := by
        cases hno : dictLookup kvs PIPEDAG_TYPE with
        | none => rfl
        | some w =>
            have h2 := hh.1.2
            simp [dictHasKey, hno] at h2
      have ih := encodeDecodeDict reg kvs hh.2
      have hsort : sortKV (jsonEncodeDict kvs) = jsonEncodeDict kvs :=
        sortKV_of_sorted _ (by rw [sortedKV_jsonEncodeDict]; exact hh.1.1)
      simp [jsonEncodeTree, jsonDecodeTree, hsort, ih, jsonObjectHook, hlk]

theorem encodeDecodeList (reg : List (String × Schema)) :
    ∀ xs : MatList, matListGood reg xs = true →
      jsonDecodeList reg (jsonEncodeList xs) = .ok xs
  | .nil, _ => rfl
  | .cons x xs, h => by
      have hh : matGood reg x = true ∧ matListGood reg xs = true := by
        simpa [matListGood, Bool.and_eq_true] using h
      simp [jsonEncodeList, jsonDecodeList,
        encodeDecodeMat reg x hh.1, encodeDecodeList reg xs hh.2]

theorem encodeDecodeDict (reg : List (String × Schema)) :
    ∀ kvs : MatDict, matDictGood reg kvs = true →
      jsonDecodeDict reg (jsonEncodeDict kvs) = .ok kvs
  | .nil, _ => rfl
  | .cons k v kvs, h => by
      have hh : matGood reg v = true ∧ matDictGood reg kvs = true := by
        simpa [matDictGood, Bool.and_eq_true] using h
      simp [jsonEncodeDict, jsonDecodeDict,
        encodeDecodeMat reg v hh.1, encodeDecodeDict reg kvs hh.2]

end

/-- C4 (counterexample): a plain string-keyed mapping that uses the
reserved key `_pipedag_type_` with value `"table"` sits inside the claim's
quantification (it is built from scalars and a string-keyed mapping, with
no unregistered stage), yet `decode(encode(x))` returns a table reference,
not the original mapping. -/
theorem claim_C4_counterexample :
    jsonDecodeTree exReg (jsonEncodeTree exBad)
      = .ok (.table ⟨exSchema, "n", "c"⟩) ∧
    jsonDecodeTree exReg (jsonEncodeTree exBad) ≠ .ok exBad := by
  decide

/-- C4 (amended): for every output tree built from supported scalars,
sequences and canonically ordered string-keyed mappings none of which
binds the reserved key `_pipedag_type_`, and table references whose stage
the registry maps back to that stage, `decode(encode(x)) = x` (table
references compare equal iff stage, name and cache_key all match — the
modelled `Table` equality). -/
theorem claim_C4_amended :
    ∀ (reg : List (String × Schema)) (x : Mat), matGood reg x = true →
      jsonDecodeTree reg (jsonEncodeTree x) = .ok x :=
  encodeDecodeMat

/-- C4 (witness): the amended round trip applied to a tree with scalars, a
sequence, a mapping and a table reference into the registered stage. -/
theorem claim_C4_witness :
    jsonDecodeTree exReg (jsonEncodeTree exTree) = .ok exTree :=
  claim_C4_amended exReg exTree (by decide)

/-! ## Claim C9: table naming -/

theorem hexDigit_toNat (d : Nat) (h : d < 10) : (hexDigit d).toNat = 48 + d := by
  interval_cases d <;> rfl

theorem decDigitsLEGo_lt : ∀ (fuel n : Nat), ∀ d ∈ decDigitsLEGo fuel n, d < 10
  | 0, n => by simp [decDigitsLEGo]
  | fuel + 1, n => by
      intro d hd
      by_cases hn : n < 10
      · simp [decDigitsLEGo, hn] at hd
        omega
      · simp [decDigitsLEGo, hn] at hd
        rcases hd with hd | hd
        · have := Nat.mod_lt n (show 0 < 10 by omega)
          omega
        · exact decDigitsLEGo_lt fuel (n / 10) d hd

theorem valLE_decDigitsLEGo : ∀ (fuel n : Nat), n < fuel →
    valLE (decDigitsLEGo fuel n) = n
  | 0, n, h => by omega
  | fuel + 1, n, h => by
      by_cases hn : n < 10
      · simp [decDigitsLEGo, hn, valLE]
      · have h1 : n / 10 < fuel := by omega
        simp [decDigitsLEGo, hn, valLE, valLE_decDigitsLEGo fuel (n / 10) h1]
        omega

theorem foldr_digits_valLE :
    ∀ ds : List Nat, List.foldr (fun d a => a * 10 + d) 0 ds = valLE ds
  | [] => rfl
  | d :: ds => by
      simp [List.foldr, valLE, foldr_digits_valLE ds]
      omega

theorem foldl_zeros :
    ∀ z : Nat, List.foldl (fun a c => a * 10 + (c.toNat - 48)) 0
      (List.replicate z '0') = 0
  | 0 => rfl
  | z + 1 => by
      rw [List.replicate_succ, List.foldl_cons]
      exact foldl_zeros z

theorem foldl_map_hexDigit :
    ∀ (ds : List Nat) (a : Nat), (∀ d ∈ ds, d < 10) →
      List.foldl (fun a c => a * 10 + (c.toNat - 48)) a (ds.map hexDigit)
        = List.foldl (fun a d => a * 10 + d) a ds
  | [], _, _ => rfl
  | d :: ds, a, h => by
      have h48 : (hexDigit d).toNat = 48 + d := hexDigit_toNat d (h d (by simp))
      simp only [List.map_cons, List.foldl_cons, h48, Nat.add_sub_cancel_left]
      exact foldl_map_hexDigit ds (a * 10 + d) (fun x hx => h x (by simp [hx]))

/-- Parsing via `parsePad` reads back the number `pad4` printed: zero padding does not
change the value, and the decimal digits evaluate to the original number. -/
theorem parsePad_pad4 (n : Nat) : parsePad (pad4 n) = n := by
  have hbound : ∀ d ∈ (decDigitsLE n).reverse, d < 10 := by
    intro d hd
    rw [List.mem_reverse] at hd
    exact decDigitsLEGo_lt (n + 1) n d hd
  show List.foldl _ 0 (List.replicate _ '0' ++ ((decDigitsLE n).reverse.map hexDigit)) = n
  rw [List.foldl_append, foldl_zeros, foldl_map_hexDigit _ _ hbound,
    List.foldl_reverse]
  show List.foldr (fun d a => a * 10 + d) 0 (decDigitsLE n) = n
  rw [foldr_digits_valLE]
  exact valLE_decDigitsLEGo (n + 1) n (by omega)

theorem str_data_append (s t : String) : (s ++ t).data = s.data ++ t.data := rfl

theorem pad4_inj (j k : Nat) (h : pad4 j = pad4 k) : j = k := by
  have hp := congrArg parsePad h
  rwa [parsePad_pad4, parsePad_pad4] at hp

/-- The counter-derived table names of one task are pairwise distinct, for
every counter value (also at and beyond 10000, where the zero padding is
exhausted). -/
theorem tableName_inj (o c : String) (j k : Nat)
    (h : tableName o c j = tableName o c k) : j = k := by
  apply pad4_inj
  have hd := congrArg String.data h
  simp only [tableName, str_data_append, List.append_assoc] at hd
  have h1 := List.append_cancel_left hd
  have h2 := List.append_cancel_left h1
  have h3 := List.append_cancel_right h2
  exact congrArg String.mk h3

theorem range'_split :
    ∀ (m s n : Nat), List.range' s (m + n) = List.range' s m ++ List.range' (s + m) n
  | 0, s, n => by simp
  | m + 1, s, n => by
      have ih := range'_split m (s + 1) n
      have e1 : m + 1 + n = (m + n) + 1 := by omega
      have e2 : s + 1 + m = s + (m + 1) := by omega
      rw [e1, List.range'_succ, ih, e2, ← List.cons_append, ← List.range'_succ]

mutual

/-- The materialisation walk numbers the encountered table references
consecutively from the incoming counter: the final counter advances by the
number of tables stored, and the stored tables carry exactly the names
`tableName o c k, tableName o c (k+1), …` in walk order. -/
theorem matWalk_spec (o c : String) (sch : Schema) :
    ∀ (x : Mat) (k : Nat),
      (matWalk o c sch x k).2.1 = k + (matWalk o c sch x k).2.2.length ∧
      (matWalk o c sch x k).2.2.map Table.name
        = (List.range' k ((matWalk o c sch x k).2.2.length)).map (tableName o c)
  | .str _, k => by simp [matWalk, List.range']
  | .int _, k => by simp [matWalk, List.range']
  | .bool _, k => by simp [matWalk, List.range']
  | .null, k => by simp [matWalk, List.range']
  | .table _, k => by simp [matWalk, List.range']
  | .list xs, k => by simpa [matWalk] using matWalkList_spec o c sch xs k
  | .dict kvs, k => by simpa [matWalk] using matWalkDict_spec o c sch kvs k

theorem matWalkList_spec (o c : String) (sch : Schema) :
    ∀ (xs : MatList) (k : Nat),
      (matWalkList o c sch xs k).2.1 = k + (matWalkList o c sch xs k).2.2.length ∧
      (matWalkList o c sch xs k).2.2.map Table.name
        = (List.range' k ((matWalkList o c sch xs k).2.2.length)).map (tableName o c)
  | .nil, k => by simp [matWalkList, List.range']
  | .cons x xs, k => by
      have ih1 := matWalk_spec o c sch x k
      have ih2 := matWalkList_spec o c sch xs ((matWalk o c sch x k).2.1)
      simp only [matWalkList]
      constructor
      · rw [List.length_append, ih2.1, ih1.1]
        omega
      · rw [List.map_append, ih1.2, ih2.2, ih1.1, List.length_append,
          range'_split, List.map_append]

theorem matWalkDict_spec (o c : String) (sch : Schema) :
    ∀ (kvs : MatDict) (k : Nat),
      (matWalkDict o c sch kvs k).2.1 = k + (matWalkDict o c sch kvs k).2.2.length ∧
      (matWalkDict o c sch kvs k).2.2.map Table.name
        = (List.range' k ((matWalkDict o c sch kvs k).2.2.length)).map (tableName o c)
  | .nil, k => by simp [matWalkDict, List.range']
  | .cons key v kvs, k => by
      have ih1 := matWalk_spec o c sch v k
      have ih2 := matWalkDict_spec o c sch kvs ((matWalk o c sch v k).2.1)
      simp only [matWalkDict]
      constructor
      · rw [List.length_append, ih2.1, ih1.1]
        omega
      · rw [List.map_append, ih1.2, ih2.2, ih1.1, List.length_append,
          range'_split, List.map_append]

end

theorem tablesOfOps_storeTables :
    ∀ (ts : List Table) (lz : Bool) (rest : List TSOp),
      tablesOfOps (ts.map (fun t => TSOp.storeTable t lz) ++ rest)
        = ts ++ tablesOfOps rest
  | [], _, _ => rfl
  | t :: ts, lz, rest => by
      simp [tablesOfOps, tablesOfOps_storeTables ts lz rest]

/-- The tables a successful `materialise_task` stores are exactly those the
walk collected. -/
theorem storedTables_materialise (st : StoreState) (task : MTask) (v : Mat)
    (h : (alookup st.schemas task.schema.name).isSome) :
    storedTables (materialise_task st task v)
      = (matWalk task.original_name task.cache_key task.schema v 0).2.2 := by
  rcases hs : alookup st.schemas task.schema.name with _ | s
  · rw [hs] at h
    simp at h
  · simp [materialise_task, hs, storedTables, tablesOfOps_storeTables, tablesOfOps]

/-- C9: within one `materialise_task` invocation the k-th table reference
of the deterministic walk is named
`<original_name>_<k zero-padded to at least 4 digits>_<cache_key>`, with
the counter starting at 0 for each invocation (the stored names are the
map of `tableName` over `range`), the names are pairwise distinct whatever
the count, and `tableName` itself is injective in the counter — so
invocations producing 10000 or more tables still get distinct names. -/
theorem claim_C9 :
    (∀ (st : StoreState) (task : MTask) (v : Mat),
      (alookup st.schemas task.schema.name).isSome →
        (storedTables (materialise_task st task v)).map Table.name
          = (List.range ((storedTables (materialise_task st task v)).length)).map
              (tableName task.original_name task.cache_key) ∧
        ((storedTables (materialise_task st task v)).map Table.name).Nodup) ∧
    (∀ (o c : String) (j k : Nat), j ≠ k → tableName o c j ≠ tableName o c k) := by
  constructor
  · intro st task v h
    rw [storedTables_materialise st task v h]
    have hw := matWalk_spec task.original_name task.cache_key task.schema v 0
    constructor
    · rw [hw.2, List.range_eq_range']
    · rw [hw.2]
      apply List.Nodup.map
      · intro a b hab
        exact tableName_inj _ _ a b hab
      · exact List.nodup_range' _ _
  · intro o c j k hne heq
    exact hne (tableName_inj o c j k heq)

/-- C9 (witness): materialising an output with three table references into
the registered stage, and distinctness beyond the padding width. -/
theorem claim_C9_witness :
    ((storedTables (materialise_task exSt1 exTask
        (.list (.cons (.table ⟨exSchema, "", ""⟩)
          (.cons (.str "x")
            (.cons (.table ⟨exSchema, "", ""⟩)
              (.cons (.table ⟨exSchema, "", ""⟩) .nil))))))).map Table.name
      = (List.range ((storedTables (materialise_task exSt1 exTask
          (.list (.cons (.table ⟨exSchema, "", ""⟩)
            (.cons (.str "x")
              (.cons (.table ⟨exSchema, "", ""⟩)
                (.cons (.table ⟨exSchema, "", ""⟩) .nil))))))).length)).map
          (tableName exTask.original_name exTask.cache_key)) ∧
    tableName "build" "ck" 10000 ≠ tableName "build" "ck" 10001 :=
  ⟨(claim_C9.1 exSt1 exTask _ (by decide)).1,
   claim_C9.2 "build" "ck" 10000 10001 (by decide)⟩

end PipeDAG

